import Mathlib

/-!
Verification development for the ai_chat_app account / credential backend.

Python strings and byte strings are modelled as lists of byte values
(`List Nat`, each element `< 256`); database tables are lists of typed rows;
each repository method and router handler becomes a pure function from the
database state (plus its arguments) to the new state and its result.
-/

namespace AiChat

/-- Byte strings: Python `str` / `bytes` values are modelled as lists of bytes. -/
abbrev Str := List Nat

/-- Every element of the list is a byte value. -/
def bytesOk (s : Str) : Prop := ∀ x ∈ s, x < 256

instance (s : Str) : Decidable (bytesOk s) := by
  unfold bytesOk; infer_instance

/-! ### Base64 (`base64.b64encode` / `base64.b64decode`)

`core/crypto.py` transports `iv + ciphertext` as one base64 string. -/

/-- ASCII code of the base64 alphabet character for a 6-bit value. -/
def b64Char (n : Nat) : Nat :=
  if n < 26 then 65 + n
  else if n < 52 then 97 + (n - 26)
  else if n < 62 then 48 + (n - 52)
  else if n = 62 then 43
  else 47

/-- 6-bit value of a base64 alphabet character (ASCII code); `none` off-alphabet. -/
def b64CharVal (c : Nat) : Option Nat :=
  if 65 ≤ c ∧ c ≤ 90 then some (c - 65)
  else if 97 ≤ c ∧ c ≤ 122 then some (26 + (c - 97))
  else if 48 ≤ c ∧ c ≤ 57 then some (52 + (c - 48))
  else if c = 43 then some 62
  else if c = 47 then some 63
  else none

/-- `base64.b64encode`: each group of 3 input bytes becomes 4 alphabet
characters; a final partial group is completed with `=` (ASCII 61) padding. -/
def b64Encode : Str → Str
  | [] => []
  | [a] => [b64Char (a / 4), b64Char (a % 4 * 16), 61, 61]
  | [a, b] => [b64Char (a / 4), b64Char (a % 4 * 16 + b / 16), b64Char (b % 16 * 4), 61]
  | a :: b :: c :: rest =>
      b64Char (a / 4) :: b64Char (a % 4 * 16 + b / 16) ::
      b64Char (b % 16 * 4 + c / 64) :: b64Char (c % 64) :: b64Encode rest

/-- `base64.b64decode`: groups of 4 characters back to bytes, `=` padding
allowed only at the very end; anything malformed is a decode error. -/
def b64Decode : Str → Option Str
  | [] => some []
  | c1 :: c2 :: c3 :: c4 :: rest =>
      match b64CharVal c1, b64CharVal c2 with
      | some s1, some s2 =>
        if c3 = 61 then
          if c4 = 61 ∧ rest = [] then some [s1 * 4 + s2 / 16] else none
        else
          match b64CharVal c3 with
          | some s3 =>
            if c4 = 61 then
              if rest = [] then some [s1 * 4 + s2 / 16, s2 % 16 * 16 + s3 / 4] else none
            else
              match b64CharVal c4 with
              | some s4 =>
                  (b64Decode rest).map
                    (fun tail =>
                      (s1 * 4 + s2 / 16) :: (s2 % 16 * 16 + s3 / 4) ::
                      (s3 % 4 * 64 + s4) :: tail)
              | none => none
          | none => none
      | _, _ => none
  | _ => none

theorem b64CharVal_b64Char : ∀ n < 64, b64CharVal (b64Char n) = some n := by decide

theorem b64Char_ne_pad : ∀ n < 64, b64Char n ≠ 61 := by decide

theorem b64Encode_length (l : Str) : (b64Encode l).length = 4 * ((l.length + 2) / 3) := by
  induction l using b64Encode.induct
  all_goals simp [b64Encode, *]
  all_goals omega

theorem b64Decode_b64Encode (l : Str) (h : bytesOk l) :
    b64Decode (b64Encode l) = some l := by
  induction l using b64Encode.induct with
  | case1 => rfl
  | case2 a =>
      have ha : a < 256 := h a (by simp)
      have h1 := b64CharVal_b64Char (a / 4) (by omega)
      have h2 := b64CharVal_b64Char (a % 4 * 16) (by omega)
      simp only [b64Encode, b64Decode, h1, h2]
      simp only [reduceIte, and_self, if_true]
      congr 2
      omega
  | case3 a b =>
      have ha : a < 256 := h a (by simp)
      have hb : b < 256 := h b (by simp)
      have h1 := b64CharVal_b64Char (a / 4) (by omega)
      have h2 := b64CharVal_b64Char (a % 4 * 16 + b / 16) (by omega)
      have h3 := b64CharVal_b64Char (b % 16 * 4) (by omega)
      have h3ne := b64Char_ne_pad (b % 16 * 4) (by omega)
      simp only [b64Encode, b64Decode, h1, h2, h3, if_neg h3ne, reduceIte, if_true]
      congr 1
      congr 1
      · omega
      · congr 1; omega
  | case4 a b c rest ih =>
      have ha : a < 256 := h a (by simp)
      have hb : b < 256 := h b (by simp)
      have hc : c < 256 := h c (by simp)
      have hrest : bytesOk rest := fun x hx => h x (by simp [hx])
      have h1 := b64CharVal_b64Char (a / 4) (by omega)
      have h2 := b64CharVal_b64Char (a % 4 * 16 + b / 16) (by omega)
      have h3 := b64CharVal_b64Char (b % 16 * 4 + c / 64) (by omega)
      have h4 := b64CharVal_b64Char (c % 64) (by omega)
      have h3ne := b64Char_ne_pad (b % 16 * 4 + c / 64) (by omega)
      have h4ne := b64Char_ne_pad (c % 64) (by omega)
      have e1 : a / 4 * 4 + (a % 4 * 16 + b / 16) / 16 = a := by omega
      have e2 : (a % 4 * 16 + b / 16) % 16 * 16 + (b % 16 * 4 + c / 64) / 4 = b := by omega
      have e3 : (b % 16 * 4 + c / 64) % 4 * 64 + c % 64 = c := by omega
      simp only [b64Encode, b64Decode, h1, h2, h3, h4, if_neg h3ne, if_neg h4ne,
        ih hrest, e1, e2, e3]
      rfl

/-! ### PKCS7 padding (`cryptography.hazmat.primitives.padding.PKCS7`, 128-bit blocks) -/

/-- PKCS7 padding: append `k` copies of the byte `k`, where
`k = 16 - len % 16` (so `1 ≤ k ≤ 16`). -/
def pkcs7Pad (data : Str) : Str :=
  data ++ List.replicate (16 - data.length % 16) (16 - data.length % 16)

/-- PKCS7 unpadding: the input must be a non-empty multiple of 16 bytes whose
last byte `k` is in `1..16` and whose last `k` bytes all equal `k`; any
violation is a padding error (`none`). -/
def pkcs7Unpad (data : Str) : Option Str :=
  if data.length % 16 ≠ 0 ∨ data = [] then none
  else
    let k := data.getLastD 0
    if k = 0 ∨ 16 < k then none
    else if (data.drop (data.length - k)).all (fun x => x = k) then
      some (data.take (data.length - k))
    else none

theorem pkcs7Unpad_pkcs7Pad (d : Str) : pkcs7Unpad (pkcs7Pad d) = some d := by
  have hk1 : 1 ≤ 16 - d.length % 16 := by omega
  have hk16 : 16 - d.length % 16 ≤ 16 := by omega
  have hlen : (pkcs7Pad d).length = d.length + (16 - d.length % 16) := by
    simp [pkcs7Pad]
  have hmod : (pkcs7Pad d).length % 16 = 0 := by rw [hlen]; omega
  have hne : pkcs7Pad d ≠ [] := by
    intro hc
    have := congrArg List.length hc
    simp [hlen] at this
    omega
  have hlast : (pkcs7Pad d).getLastD 0 = 16 - d.length % 16 := by
    unfold pkcs7Pad
    rw [List.getLastD_eq_getLast?, List.getLast?_append_of_ne_nil _
      (by simp; omega : (List.replicate (16 - d.length % 16) (16 - d.length % 16)) ≠ [])]
    rw [List.getLast?_replicate]
    rw [if_neg (by omega : ¬ 16 - d.length % 16 = 0)]
    rfl
  have hdrop : (pkcs7Pad d).drop d.length
      = List.replicate (16 - d.length % 16) (16 - d.length % 16) := by
    unfold pkcs7Pad
    rw [List.drop_left]
  have htake : (pkcs7Pad d).take d.length = d := by
    unfold pkcs7Pad
    rw [List.take_left]
  unfold pkcs7Unpad
  rw [if_neg (by push_neg; exact ⟨hmod, hne⟩)]
  simp only [hlast]
  rw [if_neg (by omega)]
  have hsub : (pkcs7Pad d).length - (16 - d.length % 16) = d.length := by omega
  rw [hsub, hdrop, htake]
  rw [if_pos (by simp [List.all_eq_true])]

/-! ### The AES-256-CBC layer

`CryptoManager._encrypt_aes_cbc` / `_decrypt_aes_cbc` call the `cryptography`
library's AES-CBC cipher with the process-wide key; that block-cipher layer is
a library concern and is modelled as an abstract pair of functions indexed by
the IV (the key is fixed for the process). `CbcCipher.Good` states the cipher
laws the library guarantees: decryption inverts encryption, and encryption
preserves the byte length and byte range. -/

structure CbcCipher where
  enc : Str → Str → Str
  dec : Str → Str → Str

structure CbcCipher.Good (C : CbcCipher) : Prop where
  dec_enc : ∀ iv d, C.dec iv (C.enc iv d) = d
  len_enc : ∀ iv d, (C.enc iv d).length = d.length
  bytes_enc : ∀ iv d, bytesOk d → bytesOk (C.enc iv d)

/-- The identity cipher: a concrete instantiation of the cipher interface,
used to evaluate the development on concrete inputs. -/
def idCipher : CbcCipher where
  enc := fun _ d => d
  dec := fun _ d => d

theorem idCipher_good : idCipher.Good :=
  ⟨fun _ _ => rfl, fun _ _ => rfl, fun _ _ h => h⟩

/-! ### `CryptoManager.encrypt` / `CryptoManager.decrypt` (core/crypto.py) -/

/-- `CryptoManager.encrypt`: an empty (falsy) plaintext returns `None`;
otherwise PKCS7-pad, CBC-encrypt under a fresh 16-byte IV (`os.urandom(16)`,
passed here as the `iv` argument), prepend the IV and base64-encode. -/
def cryptoEncrypt (C : CbcCipher) (iv : Str) (plain : Str) : Option Str :=
  if plain = [] then none
  else some (b64Encode (iv ++ C.enc iv (pkcs7Pad plain)))

/-- `CryptoManager.decrypt`: an empty (falsy) input returns `None`; otherwise
base64-decode, split the 16-byte IV off by fixed offset, CBC-decrypt and
unpad.  Any decode or padding error fails closed (`none`). -/
def cryptoDecrypt (C : CbcCipher) (blob : Str) : Option Str :=
  if blob = [] then none
  else
    match b64Decode blob with
    | none => none
    | some combined => pkcs7Unpad (C.dec (combined.take 16) (combined.drop 16))

theorem bytesOk_pkcs7Pad (d : Str) (h : bytesOk d) : bytesOk (pkcs7Pad d) := by
  intro x hx
  rcases List.mem_append.1 hx with h1 | h2
  · exact h x h1
  · have := List.eq_of_mem_replicate h2
    omega

/-- Round trip of the crypto vault: decrypting the encryption of a non-empty
plaintext returns the plaintext. -/
theorem cryptoDecrypt_cryptoEncrypt (C : CbcCipher) (hC : C.Good) (iv p blob : Str)
    (hiv : iv.length = 16) (hivb : bytesOk iv) (hpb : bytesOk p)
    (henc : cryptoEncrypt C iv p = some blob) :
    cryptoDecrypt C blob = some p := by
  unfold cryptoEncrypt at henc
  by_cases hp : p = []
  · simp [hp] at henc
  · rw [if_neg hp] at henc
    have hblob : blob = b64Encode (iv ++ C.enc iv (pkcs7Pad p)) := by
      injection henc with h; exact h.symm
    have hbytes : bytesOk (iv ++ C.enc iv (pkcs7Pad p)) := by
      intro x hx
      rcases List.mem_append.1 hx with h1 | h2
      · exact hivb x h1
      · exact hC.bytes_enc iv (pkcs7Pad p) (bytesOk_pkcs7Pad p hpb) x h2
    have hdec : b64Decode blob = some (iv ++ C.enc iv (pkcs7Pad p)) := by
      rw [hblob]; exact b64Decode_b64Encode _ hbytes
    have hblobne : blob ≠ [] := by
      intro hc
      rw [hc] at hdec
      have : ([] : Str) = iv ++ C.enc iv (pkcs7Pad p) := by
        injection hdec
      have := congrArg List.length this
      simp [hiv] at this
      omega
    unfold cryptoDecrypt
    rw [if_neg hblobne, hdec]
    have htake : (iv ++ C.enc iv (pkcs7Pad p)).take 16 = iv := by
      rw [← hiv, List.take_left]
    have hdrop : (iv ++ C.enc iv (pkcs7Pad p)).drop 16 = C.enc iv (pkcs7Pad p) := by
      rw [← hiv, List.drop_left]
    show pkcs7Unpad (C.dec ((iv ++ C.enc iv (pkcs7Pad p)).take 16)
      ((iv ++ C.enc iv (pkcs7Pad p)).drop 16)) = some p
    rw [htake, hdrop, hC.dec_enc, pkcs7Unpad_pkcs7Pad]

/-- The stored blob is strictly longer than the plaintext (IV prefix, padding
and base64 expansion), hence never equal to it. -/
theorem cryptoEncrypt_ne_plain (C : CbcCipher) (hC : C.Good) (iv p blob : Str)
    (henc : cryptoEncrypt C iv p = some blob) : blob ≠ p := by
  unfold cryptoEncrypt at henc
  by_cases hp : p = []
  · simp [hp] at henc
  · rw [if_neg hp] at henc
    have hblob : blob = b64Encode (iv ++ C.enc iv (pkcs7Pad p)) := by
      injection henc with h; exact h.symm
    intro hc
    have hlen := congrArg List.length hc
    rw [hblob, b64Encode_length] at hlen
    simp only [List.length_append, hC.len_enc] at hlen
    have hpadlen : (pkcs7Pad p).length = p.length + (16 - p.length % 16) := by
      simp [pkcs7Pad]
    rw [hpadlen] at hlen
    omega

/-! ### Data model

Rows of the relational store, one structure per table, with the column names
of the source schema (including the `is_accpet` spelling). Timestamps are
`Nat` (days for password ages, abstract instants for token expiry); `create_at`
/ `update_at` audit columns are not modelled. -/

inductive InvStatus
  | pending
  | accepted
  | declined
  | canceled
deriving DecidableEq

structure UserRow where
  user_id : Nat
  email : Str
  username : Str
  is_active : Bool
  is_admin : Bool
  is_group_owner : Bool
deriving DecidableEq

structure PasswordRow where
  user_id : Nat
  password : Str
  previous_password : Option Str
  update_at : Option Nat
deriving DecidableEq

structure GroupRow where
  group_id : Nat
  owner_user_id : Nat
  api_key_id : Nat
  name : Str
  is_active : Bool
deriving DecidableEq

structure MemberRow where
  member_id : Nat
  group_id : Nat
  user_id : Nat
  is_accpet : Bool
  is_active : Bool
  note : Option Str
deriving DecidableEq

structure InvitationRow where
  invitation_id : Nat
  group_id : Nat
  user_id : Nat
  invited_by : Nat
  note : Option Str
  status : InvStatus
deriving DecidableEq

/-- The JSON payload stored in `verification_token.extra_data` for group
invitations. -/
structure InvitePayload where
  group_id : Nat
  email : Str
  invited_by : Nat
deriving DecidableEq

/-- A `verification_token` row; `extra_data = none` models a row whose JSON
payload is absent or unparsable. -/
structure TokenRow where
  user_id : Option Nat
  token : Str
  token_type : Str
  expires_at : Nat
  extra_data : Option InvitePayload
deriving DecidableEq

structure ApiKeyRow where
  api_key_id : Nat
  user_id : Nat
  vendor : Str
  api_key : Option Str
  is_active : Bool
deriving DecidableEq

/-- The whole relational store plus the AUTO_INCREMENT counters. -/
structure Db where
  users : List UserRow
  passwords : List PasswordRow
  groups : List GroupRow
  members : List MemberRow
  invitations : List InvitationRow
  tokens : List TokenRow
  apiKeys : List ApiKeyRow
  loginHist : List Nat
  nextGroupId : Nat
  nextMemberId : Nat
  nextInvitationId : Nat
  nextApiKeyId : Nat
deriving DecidableEq

/-- The client-facing error reasons that the claims distinguish. -/
inductive ErrMsg
  | keyNotFound
  | notKeyOwner
  | badKeyFormat
  | unsupportedVendor
  | alreadyActiveMember
  | invalidInviteToken
  | expiredInviteToken
  | inviteParseError
  | sqlError
deriving DecidableEq

/-- ASCII bytes of the vendor name openai. -/
def vOpenai : Str := [111, 112, 101, 110, 97, 105]

/-- ASCII bytes of the vendor name anthropic. -/
def vAnthropic : Str := [97, 110, 116, 104, 114, 111, 112, 105, 99]

/-- ASCII bytes of the vendor name google. -/
def vGoogle : Str := [103, 111, 111, 103, 108, 101]

/-- ASCII bytes of the vendor name azure. -/
def vAzure : Str := [97, 122, 117, 114, 101]

/-! ### Credential store (`repository/api_key_repository.py`) -/

/-- `ApiKeyRepository.check_service_availability`: the per-vendor key format
check (length / `sk-` magic) over the vendor allow-list. -/
def check_service_availability (api_key vendor : Str) : Bool × Option ErrMsg :=
  if vendor = vOpenai then
    if [115, 107, 45].isPrefixOf api_key ∧ 20 < api_key.length then (true, none)
    else (false, some .badKeyFormat)
  else if vendor = vAnthropic then
    if 20 < api_key.length then (true, none) else (false, some .badKeyFormat)
  else if vendor = vGoogle then
    if 20 < api_key.length then (true, none) else (false, some .badKeyFormat)
  else if vendor = vAzure then
    if 20 < api_key.length then (true, none) else (false, some .badKeyFormat)
  else (false, some .unsupportedVendor)

/-- `ApiKeyRepository.create_api_key`: encrypt the key and insert the row.
`iv` is the fresh IV drawn inside `CryptoManager.encrypt` for this call.
The missing-connection and SQL-exception branches are not modelled. -/
def create_api_key (C : CbcCipher) (iv : Str) (db : Db) (uid : Nat)
    (vendor key : Str) (is_active : Bool) : Db × Option Nat :=
  let encrypted := cryptoEncrypt C iv key
  let row : ApiKeyRow :=
    { api_key_id := db.nextApiKeyId, user_id := uid, vendor := vendor,
      api_key := encrypted, is_active := is_active }
  ({ db with apiKeys := db.apiKeys ++ [row], nextApiKeyId := db.nextApiKeyId + 1 },
   some db.nextApiKeyId)

/-- `ApiKeyRepository.get_api_key_by_id`: fetch the row; when `decrypt` is
requested and the stored blob is truthy, replace the `api_key` column by its
decryption (which may itself be `None`). -/
def get_api_key_by_id (C : CbcCipher) (db : Db) (api_key_id : Nat)
    (dec : Bool) : Option ApiKeyRow :=
  match db.apiKeys.find? (fun r => r.api_key_id = api_key_id) with
  | none => none
  | some r =>
      if dec then
        match r.api_key with
        | some blob =>
            if blob = [] then some r
            else some { r with api_key := cryptoDecrypt C blob }
        | none => some r
      else some r

/-- `ApiKeyRepository.check_api_key_owner`. -/
def check_api_key_owner (db : Db) (api_key_id uid : Nat) : Bool × Option ErrMsg :=
  match db.apiKeys.find? (fun r => r.api_key_id = api_key_id) with
  | none => (false, some .keyNotFound)
  | some r => if r.user_id ≠ uid then (false, some .notKeyOwner) else (true, none)

/-- A row as returned by the list / detail read paths: the (possibly nulled
or decrypted) row plus the optional `masked_key` display column. -/
structure ApiKeyOut where
  row : ApiKeyRow
  masked_key : Option Str
deriving DecidableEq

/-- The masked display form used by every read path:
`decrypted_key[:4] + "*" * 8 if decrypted_key else ""` (42 is the mask
character `*`). -/
def maskFromDecrypted (d : Option Str) : Str :=
  match d with
  | none => []
  | some k => if k = [] then [] else k.take 4 ++ List.replicate 8 42

/-- One iteration of the masking loop in `ApiKeyRepository.get_user_api_keys`.
A falsy stored blob skips the whole block.  `none` models the uncaught
`TypeError` of `None[:4]` when `decrypt=True` and decryption failed (the
surrounding `except` then makes the whole call return `[]`). -/
def maskRow (C : CbcCipher) (dec : Bool) (r : ApiKeyRow) : Option ApiKeyOut :=
  match r.api_key with
  | none => some ⟨r, none⟩
  | some blob =>
      if blob = [] then some ⟨r, none⟩
      else if dec then
        match cryptoDecrypt C blob with
        | none => none
        | some d =>
            some ⟨{ r with api_key := some d }, some (d.take 4 ++ List.replicate 8 42)⟩
      else
        some ⟨{ r with api_key := none },
              some (maskFromDecrypted (cryptoDecrypt C blob))⟩

/-- `ApiKeyRepository.get_user_api_keys`: the rows owned by `uid`, masked;
an exception inside the loop makes the whole call return `[]`. -/
def get_user_api_keys (C : CbcCipher) (db : Db) (uid : Nat) (dec : Bool) :
    List ApiKeyOut :=
  (((db.apiKeys.filter (fun r => r.user_id = uid)).mapM (maskRow C dec)).getD [])

/-- Result of the `GET /api-keys/{id}` handler. -/
inductive ApiKeyDetailResult
  | forbidden (e : Option ErrMsg)
  | notFound
  | ok (out : ApiKeyOut)
deriving DecidableEq

/-- `get_api_key_detail` (api/router/api_key_router.py): ownership gate, then
fetch with `decrypt=True` and attach the masked form. -/
def get_api_key_detail (C : CbcCipher) (db : Db) (api_key_id cur : Nat) :
    ApiKeyDetailResult :=
  match check_api_key_owner db api_key_id cur with
  | (false, e) => .forbidden e
  | (true, _) =>
      match get_api_key_by_id C db api_key_id true with
      | none => .notFound
      | some r => .ok ⟨r, some (maskFromDecrypted r.api_key)⟩

/-! ### Helper lemmas -/

theorem check_service_availability_length (k v : Str)
    (h : (check_service_availability k v).1 = true) : 20 < k.length := by
  unfold check_service_availability at h
  split_ifs at h <;> simp_all

theorem find?_append_of_none {α : Type} (p : α → Bool) (l₁ l₂ : List α)
    (h : l₁.find? p = none) : (l₁ ++ l₂).find? p = l₂.find? p := by
  induction l₁ with
  | nil => rfl
  | cons a l ih =>
      rw [List.cons_append, List.find?_cons] at *
      cases hpa : p a with
      | true => simp [hpa] at h
      | false =>
          simp only [hpa] at h ⊢
          exact ih h

theorem mapM_eq_map_of_some {α β : Type} (f : α → Option β) (g : α → β)
    (h : ∀ x, f x = some (g x)) : ∀ l : List α, l.mapM f = some (l.map g) := by
  intro l
  rw [← List.mapM'_eq_mapM]
  induction l with
  | nil => rfl
  | cons a l ih => simp [List.mapM'_cons, h a, ih]

theorem cryptoEncrypt_plain_ne_nil (C : CbcCipher) (iv p blob : Str)
    (henc : cryptoEncrypt C iv p = some blob) : p ≠ [] := by
  intro hc
  rw [hc] at henc
  simp [cryptoEncrypt] at henc

theorem cryptoEncrypt_blob_ne_nil (C : CbcCipher) (hC : C.Good) (iv p blob : Str)
    (henc : cryptoEncrypt C iv p = some blob) : blob ≠ [] := by
  unfold cryptoEncrypt at henc
  by_cases hp : p = []
  · simp [hp] at henc
  · rw [if_neg hp] at henc
    injection henc with h
    intro hc
    rw [hc] at h
    have hlen := congrArg List.length h
    rw [b64Encode_length] at hlen
    have hle := hC.len_enc iv (pkcs7Pad p)
    have hpad : (pkcs7Pad p).length = p.length + (16 - p.length % 16) := by
      simp [pkcs7Pad]
    simp only [List.length_append, List.length_nil, hle, hpad] at hlen
    omega

/-- The decrypt=False masking loop body, totalized (it never raises). -/
def maskRowF (C : CbcCipher) (r : ApiKeyRow) : ApiKeyOut :=
  match r.api_key with
  | none => ⟨r, none⟩
  | some blob =>
      if blob = [] then ⟨r, none⟩
      else ⟨{ r with api_key := none },
            some (maskFromDecrypted (cryptoDecrypt C blob))⟩

theorem maskRow_false (C : CbcCipher) (r : ApiKeyRow) :
    maskRow C false r = some (maskRowF C r) := by
  unfold maskRow maskRowF
  cases r.api_key with
  | none => rfl
  | some blob =>
      by_cases hb : blob = [] <;> simp [hb]

theorem get_api_key_by_id_found (C : CbcCipher) (db : Db) (id : Nat) (r : ApiKeyRow)
    (blob : Str) (h : db.apiKeys.find? (fun x => x.api_key_id = id) = some r)
    (hb : r.api_key = some blob) (hbne : blob ≠ []) :
    get_api_key_by_id C db id true = some { r with api_key := cryptoDecrypt C blob } := by
  unfold get_api_key_by_id
  simp [h, hb, hbne]

theorem get_user_api_keys_false (C : CbcCipher) (db : Db) (uid : Nat) :
    get_user_api_keys C db uid false
      = (db.apiKeys.filter (fun r => r.user_id = uid)).map (maskRowF C) := by
  unfold get_user_api_keys
  rw [mapM_eq_map_of_some (maskRow C false) (maskRowF C) (maskRow_false C)]
  rfl

/-! ### Claim C1 -/

/-- A concrete 16-byte IV used to evaluate the development. -/
def demoIv : Str := List.replicate 16 0

/-- A concrete well-formed OpenAI-shaped key (sk- magic, 21 bytes). -/
def demoKey : Str := [115, 107, 45] ++ List.replicate 18 97

/-- The empty database. -/
def emptyDb : Db := ⟨[], [], [], [], [], [], [], [], 1, 1, 1, 1⟩

/-- C1: for every non-empty plaintext, decrypting the encryption returns the
plaintext and the stored blob differs from the plaintext; and creating a
credential with a valid allow-listed (vendor, key) pair and reading it back
with decrypt=true returns the original key, while the stored ciphertext is
never the plaintext. -/
theorem C1_vault_roundtrip (C : CbcCipher) (hC : C.Good) (iv p vendor : Str) (db : Db)
    (uid : Nat) (active : Bool)
    (hiv : iv.length = 16) (hivb : bytesOk iv) (hpb : bytesOk p)
    (hvalid : (check_service_availability p vendor).1 = true)
    (hfresh : ∀ r ∈ db.apiKeys, r.api_key_id ≠ db.nextApiKeyId) :
    (∀ q b : Str, bytesOk q → q ≠ [] → cryptoEncrypt C iv q = some b →
        cryptoDecrypt C b = some q ∧ b ≠ q) ∧
    ∃ blob,
      cryptoEncrypt C iv p = some blob ∧
      cryptoDecrypt C blob = some p ∧
      blob ≠ p ∧
      (create_api_key C iv db uid vendor p active).2 = some db.nextApiKeyId ∧
      (create_api_key C iv db uid vendor p active).1.apiKeys.find?
          (fun r => r.api_key_id = db.nextApiKeyId)
        = some ⟨db.nextApiKeyId, uid, vendor, some blob, active⟩ ∧
      get_api_key_by_id C (create_api_key C iv db uid vendor p active).1
          db.nextApiKeyId true
        = some ⟨db.nextApiKeyId, uid, vendor, some p, active⟩ := by
  constructor
  · intro q b hq hqne henc
    exact ⟨cryptoDecrypt_cryptoEncrypt C hC iv q b hiv hivb hq henc,
           cryptoEncrypt_ne_plain C hC iv q b henc⟩
  · have hpne : p ≠ [] := by
      have := check_service_availability_length p vendor hvalid
      intro hc; rw [hc] at this; simp at this
    obtain ⟨blob, henc⟩ : ∃ blob, cryptoEncrypt C iv p = some blob := by
      unfold cryptoEncrypt
      rw [if_neg hpne]
      exact ⟨_, rfl⟩
    have hdec := cryptoDecrypt_cryptoEncrypt C hC iv p blob hiv hivb hpb henc
    have hne := cryptoEncrypt_ne_plain C hC iv p blob henc
    have hblobne := cryptoEncrypt_blob_ne_nil C hC iv p blob henc
    have hrow : (create_api_key C iv db uid vendor p active).1.apiKeys
        = db.apiKeys ++ [⟨db.nextApiKeyId, uid, vendor, some blob, active⟩] := by
      simp [create_api_key, henc]
    have hnone : db.apiKeys.find? (fun r => r.api_key_id = db.nextApiKeyId) = none :=
      List.find?_eq_none.2 (fun r hr => by simpa using hfresh r hr)
    have hfind : (create_api_key C iv db uid vendor p active).1.apiKeys.find?
        (fun r => r.api_key_id = db.nextApiKeyId)
        = some ⟨db.nextApiKeyId, uid, vendor, some blob, active⟩ := by
      rw [hrow, find?_append_of_none _ _ _ hnone]
      simp [List.find?_cons]
    refine ⟨blob, henc, hdec, hne, rfl, hfind, ?_⟩
    have hget := get_api_key_by_id_found C (create_api_key C iv db uid vendor p active).1
      db.nextApiKeyId _ blob hfind rfl hblobne
    rw [hget, hdec]

/-- Witness: C1 evaluated at the identity cipher, a zero IV, a concrete
OpenAI-shaped key and the empty database. -/
theorem C1_vault_roundtrip_witness :
    (∀ q b : Str, bytesOk q → q ≠ [] → cryptoEncrypt idCipher demoIv q = some b →
        cryptoDecrypt idCipher b = some q ∧ b ≠ q) ∧
    ∃ blob,
      cryptoEncrypt idCipher demoIv demoKey = some blob ∧
      cryptoDecrypt idCipher blob = some demoKey ∧
      blob ≠ demoKey ∧
      (create_api_key idCipher demoIv emptyDb 1 vOpenai demoKey true).2
        = some emptyDb.nextApiKeyId ∧
      (create_api_key idCipher demoIv emptyDb 1 vOpenai demoKey true).1.apiKeys.find?
          (fun r => r.api_key_id = emptyDb.nextApiKeyId)
        = some ⟨emptyDb.nextApiKeyId, 1, vOpenai, some blob, true⟩ ∧
      get_api_key_by_id idCipher
          (create_api_key idCipher demoIv emptyDb 1 vOpenai demoKey true).1
          emptyDb.nextApiKeyId true
        = some ⟨emptyDb.nextApiKeyId, 1, vOpenai, some demoKey, true⟩ :=
  C1_vault_roundtrip idCipher idCipher_good demoIv demoKey vOpenai emptyDb 1 true
    (by decide) (by decide) (by decide) (by decide) (by intro r hr; simp [emptyDb] at hr)

/-! ### Claim C6 -/

/-- C6: the masked form is always the first 4 plaintext characters followed by
8 mask characters (`*`, 42); masking an empty or null key yields the empty
string; and the list-by-owner path returns only masked derivatives (the
`api_key` field is nulled, never a decrypted value), while the owner-scoped
detail path attaches the same masked form. -/
theorem C6_masked_key (C : CbcCipher) (hC : C.Good) (db : Db) (uid : Nat) :
    (maskFromDecrypted none = [] ∧ maskFromDecrypted (some []) = []) ∧
    (∀ p : Str, p ≠ [] → maskFromDecrypted (some p) = p.take 4 ++ List.replicate 8 42) ∧
    (∀ out ∈ get_user_api_keys C db uid false,
        (out.row.api_key = none ∨ out.row.api_key = some []) ∧
        ∃ r ∈ db.apiKeys, r.user_id = uid ∧ out = maskRowF C r) ∧
    (∀ (iv p blob : Str) (r : ApiKeyRow), r ∈ db.apiKeys → r.user_id = uid →
        r.api_key = some blob →
        iv.length = 16 → bytesOk iv → bytesOk p →
        cryptoEncrypt C iv p = some blob →
        (⟨{ r with api_key := none }, some (p.take 4 ++ List.replicate 8 42)⟩ : ApiKeyOut)
          ∈ get_user_api_keys C db uid false) ∧
    (∀ (iv p blob : Str) (r : ApiKeyRow),
        db.apiKeys.find? (fun x => x.api_key_id = r.api_key_id) = some r →
        r.user_id = uid → r.api_key = some blob →
        iv.length = 16 → bytesOk iv → bytesOk p →
        cryptoEncrypt C iv p = some blob →
        get_api_key_detail C db r.api_key_id uid
          = .ok ⟨{ r with api_key := some p },
                 some (p.take 4 ++ List.replicate 8 42)⟩) := by
  refine ⟨⟨rfl, rfl⟩, ?_, ?_, ?_, ?_⟩
  · intro p hp
    simp only [maskFromDecrypted]
    rw [if_neg hp]
  · intro out hout
    rw [get_user_api_keys_false] at hout
    obtain ⟨r, hrf, hout⟩ := List.mem_map.1 hout
    obtain ⟨hr, hruid⟩ := List.mem_filter.1 hrf
    refine ⟨?_, r, hr, by simpa using hruid, hout.symm⟩
    subst hout
    unfold maskRowF
    cases hk : r.api_key with
    | none => left; simp [hk]
    | some blob =>
        by_cases hb : blob = []
        · right; simp [hb, hk]
        · left; simp [hb]
  · intro iv p blob r hr hruid hrb hiv hivb hpb henc
    rw [get_user_api_keys_false]
    refine List.mem_map.2 ⟨r, List.mem_filter.2 ⟨hr, by simp [hruid]⟩, ?_⟩
    have hblobne := cryptoEncrypt_blob_ne_nil C hC iv p blob henc
    have hdec := cryptoDecrypt_cryptoEncrypt C hC iv p blob hiv hivb hpb henc
    have hpne := cryptoEncrypt_plain_ne_nil C iv p blob henc
    unfold maskRowF
    rw [hrb]
    simp only [if_neg hblobne, hdec]
    simp only [maskFromDecrypted]
    rw [if_neg hpne]
  · intro iv p blob r hfind hruid hrb hiv hivb hpb henc
    have hblobne := cryptoEncrypt_blob_ne_nil C hC iv p blob henc
    have hdec := cryptoDecrypt_cryptoEncrypt C hC iv p blob hiv hivb hpb henc
    have hpne := cryptoEncrypt_plain_ne_nil C iv p blob henc
    have hget := get_api_key_by_id_found C db r.api_key_id r blob hfind hrb hblobne
    unfold get_api_key_detail check_api_key_owner
    rw [hfind]
    simp only [hruid, ne_eq, not_true_eq_false, if_false, hget, hdec]
    simp only [maskFromDecrypted]
    rw [if_neg hpne]

/-- Witness: C6 evaluated at the identity cipher and the empty database. -/
theorem C6_masked_key_witness :
    (maskFromDecrypted none = [] ∧ maskFromDecrypted (some []) = []) ∧
    (∀ p : Str, p ≠ [] → maskFromDecrypted (some p) = p.take 4 ++ List.replicate 8 42) ∧
    (∀ out ∈ get_user_api_keys idCipher emptyDb 1 false,
        (out.row.api_key = none ∨ out.row.api_key = some []) ∧
        ∃ r ∈ emptyDb.apiKeys, r.user_id = 1 ∧ out = maskRowF idCipher r) ∧
    (∀ (iv p blob : Str) (r : ApiKeyRow), r ∈ emptyDb.apiKeys → r.user_id = 1 →
        r.api_key = some blob →
        iv.length = 16 → bytesOk iv → bytesOk p →
        cryptoEncrypt idCipher iv p = some blob →
        (⟨{ r with api_key := none }, some (p.take 4 ++ List.replicate 8 42)⟩ : ApiKeyOut)
          ∈ get_user_api_keys idCipher emptyDb 1 false) ∧
    (∀ (iv p blob : Str) (r : ApiKeyRow),
        emptyDb.apiKeys.find? (fun x => x.api_key_id = r.api_key_id) = some r →
        r.user_id = 1 → r.api_key = some blob →
        iv.length = 16 → bytesOk iv → bytesOk p →
        cryptoEncrypt idCipher iv p = some blob →
        get_api_key_detail idCipher emptyDb r.api_key_id 1
          = .ok ⟨{ r with api_key := some p },
                 some (p.take 4 ++ List.replicate 8 42)⟩) :=
  C6_masked_key idCipher idCipher_good emptyDb 1

/-! ### Membership store (`repository/group_repository.py`) -/

/-- ASCII bytes of the token type group_invitation. -/
def groupInvitationType : Str :=
  [103, 114, 111, 117, 112, 95, 105, 110, 118, 105, 116, 97, 116, 105, 111, 110]

/-- `GroupRepository.create_group`: one transaction that flags the owner as a
group owner (when not yet flagged), inserts the group row and auto-inserts
the owner as a member with `is_accpet = 1, is_active = 1`.  Only the committed
run is modelled; on an SQL error the source rolls the whole transaction back
and returns `(None, error)`.  The group row's `is_active` column takes its
schema default (active). -/
def create_group (db : Db) (owner_user_id api_key_id : Nat) (name : Str) :
    Db × Option Nat :=
  let users' := db.users.map (fun u =>
    if u.user_id = owner_user_id ∧ u.is_group_owner = false
    then { u with is_group_owner := true } else u)
  let g : GroupRow :=
    { group_id := db.nextGroupId, owner_user_id := owner_user_id,
      api_key_id := api_key_id, name := name, is_active := true }
  let m : MemberRow :=
    { member_id := db.nextMemberId, group_id := db.nextGroupId,
      user_id := owner_user_id, is_accpet := true, is_active := true, note := none }
  ({ db with users := users', groups := db.groups ++ [g],
             members := db.members ++ [m],
             nextGroupId := db.nextGroupId + 1,
             nextMemberId := db.nextMemberId + 1 },
   some db.nextGroupId)

/-- `GroupRepository.get_group_by_id` (the aggregated member count column is
not modelled, only the group row itself). -/
def get_group_by_id (db : Db) (gid : Nat) : Option GroupRow :=
  db.groups.find? (fun g => g.group_id = gid)

/-- `GroupRepository.get_group_members`: membership rows of the group joined
with their user rows (an inner `JOIN user`). -/
def get_group_members (db : Db) (gid : Nat) : List (MemberRow × UserRow) :=
  (db.members.filter (fun m => m.group_id = gid)).filterMap
    (fun m => (db.users.find? (fun u => u.user_id = m.user_id)).map (fun u => (m, u)))

/-- The two UPDATE statements inside `GroupRepository.delete_group`'s
transaction; used to inject a simulated SQL failure. -/
inductive DelStep
  | groupUpd
  | memberUpd
deriving DecidableEq

/-- `GroupRepository.delete_group`: one transaction that deactivates the group
row and then every membership row of the group; an exception at either
statement triggers `ROLLBACK`, which discards everything done since
`START TRANSACTION`, and the call reports failure. -/
def delete_group (db : Db) (gid : Nat) (failAt : Option DelStep) :
    Db × Bool × Option ErrMsg :=
  match failAt with
  | some .groupUpd => (db, false, some .sqlError)
  | some .memberUpd => (db, false, some .sqlError)
  | none =>
      let db1 := { db with groups := db.groups.map (fun (g : GroupRow) =>
        if g.group_id = gid then { g with is_active := false } else g) }
      let db2 := { db1 with members := db1.members.map (fun (m : MemberRow) =>
        if m.group_id = gid then { m with is_active := false } else m) }
      (db2, true, none)

/-- `GroupRepository.add_group_member`: look the (group, user) pair up; an
already accepted-and-active row is rejected; an existing inactive or pending
row is updated in place (accept flag as given, reactivated, note replaced)
and its id returned; otherwise a fresh row is inserted (`is_active` takes its
schema default, active). -/
def add_group_member (db : Db) (group_id user_id : Nat) (is_accpet : Bool)
    (note : Option Str) : Db × Option Nat × Option ErrMsg :=
  match db.members.find? (fun m => m.group_id = group_id ∧ m.user_id = user_id) with
  | some existing =>
      if existing.is_accpet ∧ existing.is_active then
        (db, none, some .alreadyActiveMember)
      else
        ({ db with members := db.members.map (fun m =>
            if m.member_id = existing.member_id then
              { m with is_accpet := is_accpet, is_active := true, note := note }
            else m) },
         some existing.member_id, none)
  | none =>
      let row : MemberRow :=
        { member_id := db.nextMemberId, group_id := group_id, user_id := user_id,
          is_accpet := is_accpet, is_active := true, note := note }
      ({ db with members := db.members ++ [row], nextMemberId := db.nextMemberId + 1 },
       some db.nextMemberId, none)

/-- `GroupRepository.update_group_member`: update any provided subset of the
accept / active / note columns of one membership row. -/
def update_group_member (db : Db) (member_id : Nat) (is_accpet is_active : Option Bool)
    (note : Option Str) : Db × Bool :=
  ({ db with members := db.members.map (fun m =>
      if m.member_id = member_id then
        { m with
            is_accpet := is_accpet.getD m.is_accpet,
            is_active := is_active.getD m.is_active,
            note := match note with | some n => some n | none => m.note }
      else m) },
   true)

/-- `GroupRepository.remove_group_member`: soft delete (set `is_active = 0`). -/
def remove_group_member (db : Db) (member_id : Nat) : Db × Bool :=
  ({ db with members := db.members.map (fun m =>
      if m.member_id = member_id then { m with is_active := false } else m) },
   true)

/-- `GroupRepository.get_member_info`: membership row joined with its user row. -/
def get_member_info (db : Db) (member_id : Nat) : Option (MemberRow × UserRow) :=
  match db.members.find? (fun m => m.member_id = member_id) with
  | none => none
  | some m => (db.users.find? (fun u => u.user_id = m.user_id)).map (fun u => (m, u))

/-- `GroupRepository.get_member_by_user_and_group`. -/
def get_member_by_user_and_group (db : Db) (user_id group_id : Nat) : Option MemberRow :=
  db.members.find? (fun m => m.user_id = user_id ∧ m.group_id = group_id)

/-- `GroupRepository.store_invitation`: delete any previous group-invitation
token for the same (group, email) payload (the source matches the serialized
JSON with a LIKE pattern), then insert the fresh token with its payload. -/
def store_invitation (db : Db) (group_id : Nat) (email : Str) (invited_by : Nat)
    (token : Str) (expires_at : Nat) : Db × Bool :=
  let kept := db.tokens.filter (fun t =>
    !(t.token_type == groupInvitationType &&
      (t.extra_data.map (fun p => p.group_id == group_id && p.email == email)).getD false))
  ({ db with tokens := kept ++
      [{ user_id := none, token := token, token_type := groupInvitationType,
         expires_at := expires_at, extra_data := some ⟨group_id, email, invited_by⟩ }] },
   true)

/-- `GroupRepository.verify_invitation`: look the token up; a missing token is
invalid; an expired token is deleted on lookup (lazy eviction) and reported
expired; otherwise the JSON payload is returned (an unparsable payload is an
error). -/
def verify_invitation (db : Db) (now : Nat) (token : Str) :
    Db × Option InvitePayload × Option ErrMsg :=
  match db.tokens.find? (fun t =>
      t.token = token ∧ t.token_type = groupInvitationType) with
  | none => (db, none, some .invalidInviteToken)
  | some r =>
      if r.expires_at < now then
        ({ db with tokens := db.tokens.filter (fun t => ¬(t.token = token)) },
         none, some .expiredInviteToken)
      else
        match r.extra_data with
        | some p => (db, some p, none)
        | none => (db, none, some .inviteParseError)

/-- At most one membership row per (group, user) pair. -/
def membersPairUnique (l : List MemberRow) : Prop :=
  l.Pairwise (fun a b => ¬(a.group_id = b.group_id ∧ a.user_id = b.user_id))

theorem find?_map_pres {α : Type} (f : α → α) (p : α → Bool) (l : List α)
    (hf : ∀ a, p (f a) = p a) : (l.map f).find? p = (l.find? p).map f := by
  induction l with
  | nil => rfl
  | cons a l ih =>
      rw [List.map_cons, List.find?_cons, List.find?_cons, hf a]
      cases hpa : p a with
      | true => simp
      | false => simp [ih]

/-- `add_group_member` preserves the at-most-one-membership-row-per-(group,
user) invariant: updates keep the pair columns, and an insert happens only
when no row for the pair exists. -/
theorem add_group_member_pairUnique (db : Db) (gid uid : Nat) (acc : Bool)
    (note : Option Str) (huniq : membersPairUnique db.members) :
    membersPairUnique (add_group_member db gid uid acc note).1.members := by
  cases hfind : db.members.find? (fun m => m.group_id = gid ∧ m.user_id = uid) with
  | some ex =>
      by_cases hact : ex.is_accpet = true ∧ ex.is_active = true
      · simp only [add_group_member, hfind]
        rw [if_pos hact]
        exact huniq
      · simp only [add_group_member, hfind]
        rw [if_neg hact]
        show membersPairUnique (db.members.map _)
        unfold membersPairUnique at huniq ⊢
        rw [List.pairwise_map]
        refine huniq.imp ?_
        intro a b hab hc
        apply hab
        have ha : ∀ m : MemberRow,
            ((if m.member_id = ex.member_id then
                { m with is_accpet := acc, is_active := true, note := note }
              else m) : MemberRow).group_id = m.group_id ∧
            ((if m.member_id = ex.member_id then
                { m with is_accpet := acc, is_active := true, note := note }
              else m) : MemberRow).user_id = m.user_id := by
          intro m
          by_cases hm : m.member_id = ex.member_id <;> simp [hm]
        refine ⟨?_, ?_⟩
        · rw [← (ha a).1, ← (ha b).1]; exact hc.1
        · rw [← (ha a).2, ← (ha b).2]; exact hc.2
  | none =>
      simp only [add_group_member, hfind]
      unfold membersPairUnique at huniq ⊢
      rw [List.pairwise_append]
      refine ⟨huniq, List.pairwise_singleton _ _, ?_⟩
      intro a ha b hb
      simp only [List.mem_singleton] at hb
      subst hb
      have hnot := List.find?_eq_none.1 hfind a ha
      simp only [decide_eq_true_eq] at hnot
      intro hc
      exact hnot ⟨hc.1, hc.2⟩

/-! ### Claim C3 -/

/-- C3: `add_group_member` is an idempotent upsert: an accepted-and-active
existing row is rejected with no write; an inactive or pending row is updated
in place (accept flag as given, reactivated) and its id returned; a missing
row is inserted; and the at-most-one-row-per-(group,user) invariant is
preserved. -/
theorem C3_add_group_member_upsert (db : Db) (gid uid : Nat) (acc : Bool)
    (note : Option Str) :
    (∀ ex : MemberRow,
      db.members.find? (fun m => m.group_id = gid ∧ m.user_id = uid) = some ex →
      (ex.is_accpet = true ∧ ex.is_active = true →
        add_group_member db gid uid acc note = (db, none, some .alreadyActiveMember)) ∧
      (¬(ex.is_accpet = true ∧ ex.is_active = true) →
        (add_group_member db gid uid acc note).2.1 = some ex.member_id ∧
        (add_group_member db gid uid acc note).1.members
          = db.members.map (fun m =>
              if m.member_id = ex.member_id then
                { m with is_accpet := acc, is_active := true, note := note }
              else m) ∧
        (add_group_member db gid uid acc note).1.members.length
          = db.members.length)) ∧
    (db.members.find? (fun m => m.group_id = gid ∧ m.user_id = uid) = none →
      (add_group_member db gid uid acc note).2.1 = some db.nextMemberId ∧
      (add_group_member db gid uid acc note).1.members
        = db.members ++
          [{ member_id := db.nextMemberId, group_id := gid, user_id := uid,
             is_accpet := acc, is_active := true, note := note }]) ∧
    (membersPairUnique db.members →
      membersPairUnique (add_group_member db gid uid acc note).1.members) := by
  refine ⟨?_, ?_, ?_⟩
  · intro ex hfind
    constructor
    · intro hact
      simp only [add_group_member, hfind]
      rw [if_pos hact]
    · intro hact
      simp only [add_group_member, hfind]
      rw [if_neg hact]
      exact ⟨rfl, rfl, by simp⟩
  · intro hfind
    simp only [add_group_member, hfind]
    exact ⟨by simp, by simp⟩
  · exact add_group_member_pairUnique db gid uid acc note

/-- A store with one group (id 5, owned by user 7) and one accepted-and-active
membership row for its owner. -/
def dbOneMember : Db :=
  { emptyDb with
      groups := [{ group_id := 5, owner_user_id := 7, api_key_id := 1,
                   name := [97], is_active := true }],
      members := [{ member_id := 1, group_id := 5, user_id := 7,
                    is_accpet := true, is_active := true, note := none }],
      nextGroupId := 6, nextMemberId := 2 }

/-- Witness: C3 evaluated at a store holding one accepted-and-active
membership row. -/
theorem C3_add_group_member_upsert_witness :
    (∀ ex : MemberRow,
      (dbOneMember).members.find? (fun m => m.group_id = 5 ∧ m.user_id = 7)
          = some ex →
      (ex.is_accpet = true ∧ ex.is_active = true →
        add_group_member dbOneMember 5 7 false none
          = (dbOneMember, none, some .alreadyActiveMember)) ∧
      (¬(ex.is_accpet = true ∧ ex.is_active = true) →
        (add_group_member dbOneMember 5 7 false none).2.1 = some ex.member_id ∧
        (add_group_member dbOneMember 5 7 false none).1.members
          = dbOneMember.members.map (fun m =>
              if m.member_id = ex.member_id then
                { m with is_accpet := false, is_active := true, note := none }
              else m) ∧
        (add_group_member dbOneMember 5 7 false none).1.members.length
          = dbOneMember.members.length)) ∧
    (dbOneMember.members.find? (fun m => m.group_id = 5 ∧ m.user_id = 7) = none →
      (add_group_member dbOneMember 5 7 false none).2.1
        = some dbOneMember.nextMemberId ∧
      (add_group_member dbOneMember 5 7 false none).1.members
        = dbOneMember.members ++
          [{ member_id := dbOneMember.nextMemberId, group_id := 5, user_id := 7,
             is_accpet := false, is_active := true, note := none }]) ∧
    (membersPairUnique dbOneMember.members →
      membersPairUnique (add_group_member dbOneMember 5 7 false none).1.members) :=
  C3_add_group_member_upsert dbOneMember 5 7 false none

/-! ### Claim C4 -/

/-- C4: `delete_group` is atomic: a committed run deactivates the group row
and every membership row of the group and touches nothing else; a run that
fails at either statement reports failure with the store unchanged. -/
theorem C4_delete_group_atomic (db : Db) (gid : Nat) (failAt : Option DelStep) :
    (failAt = none →
      (delete_group db gid failAt).2.1 = true ∧
      (delete_group db gid failAt).2.2 = none ∧
      (∀ g ∈ (delete_group db gid failAt).1.groups,
          g.group_id = gid → g.is_active = false) ∧
      (∀ m ∈ (delete_group db gid failAt).1.members,
          m.group_id = gid → m.is_active = false) ∧
      (∀ g ∈ db.groups, g.group_id ≠ gid →
          g ∈ (delete_group db gid failAt).1.groups) ∧
      (∀ m ∈ db.members, m.group_id ≠ gid →
          m ∈ (delete_group db gid failAt).1.members) ∧
      (delete_group db gid failAt).1.users = db.users ∧
      (delete_group db gid failAt).1.tokens = db.tokens ∧
      (delete_group db gid failAt).1.invitations = db.invitations ∧
      (delete_group db gid failAt).1.apiKeys = db.apiKeys) ∧
    (failAt ≠ none → delete_group db gid failAt = (db, false, some .sqlError)) := by
  constructor
  · intro h
    subst h
    refine ⟨rfl, rfl, ?_, ?_, ?_, ?_, rfl, rfl, rfl, rfl⟩
    · intro g hg hgid
      simp only [delete_group] at hg
      obtain ⟨x, hx, rfl⟩ := List.mem_map.1 hg
      by_cases hxg : x.group_id = gid
      · simp [hxg]
      · simp only [if_neg hxg] at hgid ⊢
        exact absurd hgid hxg
    · intro m hm hmid
      simp only [delete_group] at hm
      obtain ⟨x, hx, rfl⟩ := List.mem_map.1 hm
      by_cases hxg : x.group_id = gid
      · simp [hxg]
      · simp only [if_neg hxg] at hmid ⊢
        exact absurd hmid hxg
    · intro g hg hne
      simp only [delete_group]
      exact List.mem_map.2 ⟨g, hg, by simp [hne]⟩
    · intro m hm hne
      simp only [delete_group]
      exact List.mem_map.2 ⟨m, hm, by simp [hne]⟩
  · intro h
    cases failAt with
    | none => exact absurd rfl h
    | some s => cases s <;> rfl

/-- Witness: C4 evaluated at a store with one group and one member, for both
the committed run and an injected failure at the membership statement. -/
theorem C4_delete_group_atomic_witness :
    ((some DelStep.memberUpd = none →
      (delete_group dbOneMember 5 (some .memberUpd)).2.1 = true ∧
      (delete_group dbOneMember 5 (some .memberUpd)).2.2 = none ∧
      (∀ g ∈ (delete_group dbOneMember 5 (some .memberUpd)).1.groups,
          g.group_id = 5 → g.is_active = false) ∧
      (∀ m ∈ (delete_group dbOneMember 5 (some .memberUpd)).1.members,
          m.group_id = 5 → m.is_active = false) ∧
      (∀ g ∈ dbOneMember.groups, g.group_id ≠ 5 →
          g ∈ (delete_group dbOneMember 5 (some .memberUpd)).1.groups) ∧
      (∀ m ∈ dbOneMember.members, m.group_id ≠ 5 →
          m ∈ (delete_group dbOneMember 5 (some .memberUpd)).1.members) ∧
      (delete_group dbOneMember 5 (some .memberUpd)).1.users = dbOneMember.users ∧
      (delete_group dbOneMember 5 (some .memberUpd)).1.tokens = dbOneMember.tokens ∧
      (delete_group dbOneMember 5 (some .memberUpd)).1.invitations
        = dbOneMember.invitations ∧
      (delete_group dbOneMember 5 (some .memberUpd)).1.apiKeys
        = dbOneMember.apiKeys) ∧
    (some DelStep.memberUpd ≠ none →
      delete_group dbOneMember 5 (some .memberUpd)
        = (dbOneMember, false, some .sqlError))) :=
  C4_delete_group_atomic dbOneMember 5 (some .memberUpd)

/-! ### Claim C5 -/

/-- A registered active user, used to evaluate group creation. -/
def demoUser : UserRow :=
  { user_id := 1, email := [97], username := [98], is_active := true,
    is_admin := false, is_group_owner := false }

/-- A store holding only `demoUser`. -/
def dbWithUser : Db := { emptyDb with users := [demoUser] }

theorem singleton_join {α β : Type} (m : α) (f : α → Option β)
    (h : (f m).isSome = true) :
    (List.filterMap (fun x => (f x).map (fun u => (x, u))) [m]).map Prod.fst = [m] := by
  obtain ⟨b, hb⟩ := Option.isSome_iff_exists.1 h
  simp [List.filterMap_cons, hb]

/-- C5: a successful `create_group` inserts, in the same transaction, a
membership row for the owner with the accepted and active flags set, so the
fresh group's member list is exactly the owner, accepted and active. -/
theorem C5_create_group_owner_member (db : Db) (owner api_key_id : Nat) (name : Str)
    (hfresh : ∀ m ∈ db.members, m.group_id ≠ db.nextGroupId)
    (hu : (db.users.find? (fun x => x.user_id = owner)).isSome = true) :
    (create_group db owner api_key_id name).2 = some db.nextGroupId ∧
    (get_group_members (create_group db owner api_key_id name).1 db.nextGroupId).map
        Prod.fst
      = [{ member_id := db.nextMemberId, group_id := db.nextGroupId, user_id := owner,
           is_accpet := true, is_active := true, note := none }] := by
  refine ⟨rfl, ?_⟩
  obtain ⟨u, hu'⟩ := Option.isSome_iff_exists.1 hu
  unfold get_group_members create_group
  rw [List.filter_append]
  rw [List.filter_eq_nil_iff.2 (by
    intro m hm
    simp only [decide_eq_true_eq]
    exact hfresh m hm)]
  rw [List.nil_append]
  rw [show (List.filter (fun m => decide (m.group_id = db.nextGroupId))
      [({ member_id := db.nextMemberId, group_id := db.nextGroupId, user_id := owner,
          is_accpet := true, is_active := true, note := none } : MemberRow)])
      = [{ member_id := db.nextMemberId, group_id := db.nextGroupId, user_id := owner,
           is_accpet := true, is_active := true, note := none }] by simp]
  refine singleton_join _ _ ?_
  show ((db.users.map (fun u : UserRow =>
      if u.user_id = owner ∧ u.is_group_owner = false
      then { u with is_group_owner := true } else u)).find?
      (fun x => x.user_id = owner)).isSome = true
  have hpres : ∀ a : UserRow,
      (fun x : UserRow => decide (x.user_id = owner))
        ((fun u : UserRow =>
          if u.user_id = owner ∧ u.is_group_owner = false
          then { u with is_group_owner := true } else u) a)
      = (fun x : UserRow => decide (x.user_id = owner)) a := by
    intro a
    by_cases hcond : a.user_id = owner ∧ a.is_group_owner = false <;> simp [hcond]
  rw [find?_map_pres _ _ _ hpres, hu']
  rfl

/-- Witness: C5 evaluated at a store holding one registered user. -/
theorem C5_create_group_owner_member_witness :
    (create_group dbWithUser 1 9 [103]).2 = some dbWithUser.nextGroupId ∧
    (get_group_members (create_group dbWithUser 1 9 [103]).1
        dbWithUser.nextGroupId).map Prod.fst
      = [{ member_id := dbWithUser.nextMemberId, group_id := dbWithUser.nextGroupId,
           user_id := 1, is_accpet := true, is_active := true, note := none }] :=
  C5_create_group_owner_member dbWithUser 1 9 [103] (by decide) (by decide)

/-! ### Identity store (`repository/user_repository.py`) -/

/-- `UserRepository.get_user_by_email`. -/
def get_user_by_email (db : Db) (email : Str) : Option UserRow :=
  db.users.find? (fun u => u.email = email)

/-- `UserRepository.get_user_by_id`. -/
def get_user_by_id (db : Db) (uid : Nat) : Option UserRow :=
  db.users.find? (fun u => u.user_id = uid)

/-- `UserRepository.get_user_password`. -/
def get_user_password (db : Db) (uid : Nat) : Option PasswordRow :=
  db.passwords.find? (fun p => p.user_id = uid)

/-- `UserRepository.verify_token`: look the (token, token_type) row up; a
missing row fails; an expired row is deleted (by token) and fails; otherwise
the row is deleted (by token) and its bound user id returned — single use. -/
def verify_token (db : Db) (now : Nat) (token token_type : Str) :
    Db × Option Nat :=
  match db.tokens.find? (fun t => t.token = token ∧ t.token_type = token_type) with
  | none => (db, none)
  | some r =>
      if r.expires_at < now then
        ({ db with tokens := db.tokens.filter (fun t => ¬(t.token = token)) }, none)
      else
        ({ db with tokens := db.tokens.filter (fun t => ¬(t.token = token)) },
         r.user_id)

/-! ### Invitation store (`repository/invitation_repository.py`) -/

/-- `InvitationRepository.get_invitation_by_id`: the invitation row
inner-joined with its group, invitee and inviter rows. -/
def get_invitation_by_id (db : Db) (iid : Nat) :
    Option (InvitationRow × GroupRow × UserRow × UserRow) :=
  match db.invitations.find? (fun i => i.invitation_id = iid) with
  | none => none
  | some gi =>
      match db.groups.find? (fun g => g.group_id = gi.group_id) with
      | none => none
      | some g =>
          match db.users.find? (fun u => u.user_id = gi.user_id) with
          | none => none
          | some u =>
              match db.users.find? (fun w => w.user_id = gi.invited_by) with
              | none => none
              | some inv => some (gi, g, u, inv)

/-- `InvitationRepository.update_invitation_status`. -/
def update_invitation_status (db : Db) (iid : Nat) (status : InvStatus) : Db × Bool :=
  ({ db with invitations := db.invitations.map (fun i =>
      if i.invitation_id = iid then { i with status := status } else i) },
   true)

/-! ### Router handlers -/

/-- Result of `POST /invitations/{id}/accept`. -/
inductive AcceptInvResult
  | notFound
  | notTarget
  | alreadyAccepted
  | wrongStatus (s : InvStatus)
  | memberAddFailed (e : Option ErrMsg)
  | ok (group_id : Nat)
deriving DecidableEq

/-- `accept_invitation` (api/router/invitation_router.py): look the invitation
up; only its target may accept; an already-accepted invitation is a friendly
no-op success; declined / canceled are client errors; for a pending invitation
the status is flipped to accepted and the membership row is inserted or
updated (two separate writes — if the second fails the flip stays in place
and a 500 surfaces). -/
def Router.accept_invitation (db : Db) (iid cur : Nat) : Db × AcceptInvResult :=
  match get_invitation_by_id db iid with
  | none => (db, .notFound)
  | some (gi, _g, _u, _inv) =>
      if gi.user_id ≠ cur then (db, .notTarget)
      else if gi.status ≠ .pending then
        (if gi.status = .accepted then (db, .alreadyAccepted)
         else (db, .wrongStatus gi.status))
      else
        let r1 := update_invitation_status db iid .accepted
        match add_group_member r1.1 gi.group_id cur true none with
        | (db2, some _mid, _) => (db2, .ok gi.group_id)
        | (db2, none, e) => (db2, .memberAddFailed e)

/-- Result of `DELETE /groups/{gid}/members/{mid}`. -/
inductive RemoveMemberResult
  | groupNotFound
  | memberNotFound
  | forbidden
  | ownerBlocked
  | ok
deriving DecidableEq

/-- `remove_group_member` (api/router/group_router.py): 404 gates for group
and member, then the permission gate (group owner or the member themself),
then the owner-cannot-be-removed gate, then the soft delete. -/
def Router.remove_group_member (db : Db) (gid mid cur : Nat) :
    Db × RemoveMemberResult :=
  match get_group_by_id db gid with
  | none => (db, .groupNotFound)
  | some group =>
      match get_member_info db mid with
      | none => (db, .memberNotFound)
      | some (member, _useri) =>
          if member.group_id ≠ gid then (db, .memberNotFound)
          else if group.owner_user_id ≠ cur ∧ member.user_id ≠ cur then
            (db, .forbidden)
          else if member.user_id = group.owner_user_id then (db, .ownerBlocked)
          else ((AiChat.remove_group_member db mid).1, .ok)

/-- Result of `POST /auth/login`. -/
inductive LoginResult
  | unauthorized
  | forbidden
  | serverError
  | ok (user_id days : Nat) (change_required : Bool)
deriving DecidableEq

/-- `login` (api/router/auth_router.py): resolve the email, verify the
password hash (`verify` abstracts the passlib bcrypt check), require an
active account, compute the password age and the 180-day change flag, then
`await create_login_history` — that INSERT is not wrapped in any
try / except, so when it raises (`histRaises`) the exception propagates and
the request fails with a server error, with no history row written and
no token payload returned. -/
def Router.login (db : Db) (now : Nat) (verify : Str → Str → Bool)
    (email password : Str) (histRaises : Bool) : Db × LoginResult :=
  match get_user_by_email db email with
  | none => (db, .unauthorized)
  | some user =>
      match get_user_password db user.user_id with
      | none => (db, .unauthorized)
      | some up =>
          if ¬ verify password up.password then (db, .unauthorized)
          else if ¬ user.is_active then (db, .forbidden)
          else
            let days := match up.update_at with
              | some upd => now - upd
              | none => 0
            if histRaises then (db, .serverError)
            else ({ db with loginHist := db.loginHist ++ [user.user_id] },
                  .ok user.user_id days (decide (180 ≤ days)))

/-- Result of `POST /groups/accept-invitation`. -/
inductive AcceptEmailInvResult
  | invalid (e : Option ErrMsg)
  | emailMismatch
  | groupNotFound
  | joinFailed (e : Option ErrMsg)
  | ok
deriving DecidableEq

/-- `accept_group_invitation` (api/router/group_router.py): verify the
invitation token (which only deletes it when expired), cross-check the bound
email against the authenticated account's email, resolve the group, then
update the existing membership row or insert a fresh accepted one.  No path
deletes the token. -/
def Router.accept_group_invitation (db : Db) (now : Nat) (curId : Nat)
    (curEmail : Str) (token : Str) : Db × AcceptEmailInvResult :=
  match verify_invitation db now token with
  | (db1, none, e) => (db1, .invalid e)
  | (db1, some payload, _) =>
      if payload.email ≠ curEmail then (db1, .emailMismatch)
      else
        match get_group_by_id db1 payload.group_id with
        | none => (db1, .groupNotFound)
        | some _group =>
            match get_member_by_user_and_group db1 curId payload.group_id with
            | some existing =>
                ((update_group_member db1 existing.member_id
                    (some true) (some true) none).1, .ok)
            | none =>
                match add_group_member db1 payload.group_id curId true none with
                | (db2, some _mid, _) => (db2, .ok)
                | (db2, none, e) => (db2, .joinFailed e)

/-! ### Frame lemmas -/

theorem add_group_member_frame (db : Db) (gid uid : Nat) (acc : Bool)
    (note : Option Str) :
    (add_group_member db gid uid acc note).1.groups = db.groups ∧
    (add_group_member db gid uid acc note).1.users = db.users ∧
    (add_group_member db gid uid acc note).1.invitations = db.invitations ∧
    (add_group_member db gid uid acc note).1.tokens = db.tokens := by
  cases hfind : db.members.find? (fun m => m.group_id = gid ∧ m.user_id = uid) with
  | some ex =>
      by_cases hact : ex.is_accpet = true ∧ ex.is_active = true
      · simp only [add_group_member, hfind]
        rw [if_pos hact]
        exact ⟨by trivial, by trivial, by trivial, by trivial⟩
      · simp only [add_group_member, hfind]
        rw [if_neg hact]
        exact ⟨by trivial, by trivial, by trivial, by trivial⟩
  | none =>
      simp only [add_group_member, hfind]
      exact ⟨by trivial, by trivial, by trivial, by trivial⟩

/-- A call with `is_accpet = true` always leaves an accepted-and-active
membership row for the pair in the store (the reject branch only fires when
such a row already exists). -/
theorem add_group_member_membership (db : Db) (gid uid : Nat) (note : Option Str) :
    ∃ m ∈ (add_group_member db gid uid true note).1.members,
      m.group_id = gid ∧ m.user_id = uid ∧ m.is_accpet = true ∧ m.is_active = true := by
  cases hfind : db.members.find? (fun m => m.group_id = gid ∧ m.user_id = uid) with
  | some ex =>
      have hex := List.find?_some hfind
      simp only [decide_eq_true_eq] at hex
      have hmem := List.mem_of_find?_eq_some hfind
      by_cases hact : ex.is_accpet = true ∧ ex.is_active = true
      · simp only [add_group_member, hfind]
        rw [if_pos hact]
        exact ⟨ex, hmem, hex.1, hex.2, hact.1, hact.2⟩
      · simp only [add_group_member, hfind]
        rw [if_neg hact]
        refine ⟨{ ex with is_accpet := true, is_active := true, note := note },
                ?_, hex.1, hex.2, rfl, rfl⟩
        have hmap := List.mem_map_of_mem
          (fun m : MemberRow =>
            if m.member_id = ex.member_id then
              { m with is_accpet := true, is_active := true, note := note }
            else m) hmem
        simpa using hmap
  | none =>
      simp only [add_group_member, hfind]
      exact ⟨_, List.mem_append.2 (Or.inr (List.mem_singleton.2 rfl)),
             rfl, rfl, rfl, rfl⟩

/-! ### Claim C7 -/

/-- C7: password-reset / verification tokens are single-use: a successful
redemption returns the bound user id and deletes the token row, so a second
redemption of the same token fails; an expired token is deleted on lookup and
also fails. -/
theorem C7_verify_token_single_use (db : Db) (now now2 : Nat)
    (token token_type : Str) (r : TokenRow)
    (hfind : db.tokens.find?
      (fun t => t.token = token ∧ t.token_type = token_type) = some r) :
    (¬ r.expires_at < now → ∀ uid, r.user_id = some uid →
      (verify_token db now token token_type).2 = some uid ∧
      (∀ t ∈ (verify_token db now token token_type).1.tokens, t.token ≠ token) ∧
      verify_token (verify_token db now token token_type).1 now2 token token_type
        = ((verify_token db now token token_type).1, none)) ∧
    (r.expires_at < now →
      (verify_token db now token token_type).2 = none ∧
      ∀ t ∈ (verify_token db now token token_type).1.tokens, t.token ≠ token) := by
  have hfiltered : ∀ t ∈ db.tokens.filter (fun t => ¬(t.token = token)),
      t.token ≠ token := by
    intro t ht
    have := (List.mem_filter.1 ht).2
    simpa using this
  have hnone : (db.tokens.filter (fun t => ¬(t.token = token))).find?
      (fun t => t.token = token ∧ t.token_type = token_type) = none := by
    apply List.find?_eq_none.2
    intro t ht
    simp only [decide_eq_true_eq]
    intro hc
    exact hfiltered t ht hc.1
  constructor
  · intro hexp uid huid
    simp only [verify_token, hfind]
    rw [if_neg hexp]
    refine ⟨huid, hfiltered, ?_⟩
    simp only [verify_token, hnone]
  · intro hexp
    simp only [verify_token, hfind]
    rw [if_pos hexp]
    exact ⟨rfl, hfiltered⟩

/-- A store holding one verification token (user 3, expiry instant 100). -/
def dbWithToken : Db :=
  { emptyDb with tokens := [{ user_id := some 3, token := [116],
                              token_type := [112], expires_at := 100,
                              extra_data := none }] }

/-- Witness: C7 evaluated at a store with one live token, redeemed at
instant 50 and re-redeemed at instant 60. -/
theorem C7_verify_token_single_use_witness :
    (¬ (100 : Nat) < 50 → ∀ uid, (some 3 : Option Nat) = some uid →
      (verify_token dbWithToken 50 [116] [112]).2 = some uid ∧
      (∀ t ∈ (verify_token dbWithToken 50 [116] [112]).1.tokens,
        t.token ≠ [116]) ∧
      verify_token (verify_token dbWithToken 50 [116] [112]).1 60 [116] [112]
        = ((verify_token dbWithToken 50 [116] [112]).1, none)) ∧
    ((100 : Nat) < 50 →
      (verify_token dbWithToken 50 [116] [112]).2 = none ∧
      ∀ t ∈ (verify_token dbWithToken 50 [116] [112]).1.tokens,
        t.token ≠ [116]) :=
  C7_verify_token_single_use dbWithToken 50 60 [116] [112]
    { user_id := some 3, token := [116], token_type := [112],
      expires_at := 100, extra_data := none } (by decide)

/-! ### Claim C2 -/

/-- C2: accepting a registered-user invitation: a non-target caller is
rejected with no state change; an already-accepted invitation is a friendly
no-op success with no state change; declined / canceled are client errors
with no state change; only a pending invitation flips to accepted and leaves
an accepted-and-active membership row for the (group, user) pair; the
at-most-one-membership-row-per-pair invariant is preserved; and a second
accept of a successfully accepted invitation is the friendly no-op, so
double-submit never inserts a second membership row. -/
theorem C2_accept_invitation (db : Db) (iid cur : Nat)
    (gi : InvitationRow) (g : GroupRow) (u inv : UserRow)
    (h1 : db.invitations.find? (fun i => i.invitation_id = iid) = some gi)
    (h2 : db.groups.find? (fun x => x.group_id = gi.group_id) = some g)
    (h3 : db.users.find? (fun x => x.user_id = gi.user_id) = some u)
    (h4 : db.users.find? (fun w => w.user_id = gi.invited_by) = some inv) :
    (gi.user_id ≠ cur → Router.accept_invitation db iid cur = (db, .notTarget)) ∧
    (gi.user_id = cur → gi.status = .accepted →
      Router.accept_invitation db iid cur = (db, .alreadyAccepted)) ∧
    (gi.user_id = cur → (gi.status = .declined ∨ gi.status = .canceled) →
      Router.accept_invitation db iid cur = (db, .wrongStatus gi.status)) ∧
    (gi.user_id = cur → gi.status = .pending →
      (∀ i ∈ (Router.accept_invitation db iid cur).1.invitations,
          i.invitation_id = iid → i.status = .accepted) ∧
      (∃ m ∈ (Router.accept_invitation db iid cur).1.members,
          m.group_id = gi.group_id ∧ m.user_id = cur ∧
          m.is_accpet = true ∧ m.is_active = true)) ∧
    (membersPairUnique db.members →
      membersPairUnique (Router.accept_invitation db iid cur).1.members) ∧
    (∀ db' gid', Router.accept_invitation db iid cur = (db', .ok gid') →
      Router.accept_invitation db' iid cur = (db', .alreadyAccepted)) := by
  have hjoin : get_invitation_by_id db iid = some (gi, g, u, inv) := by
    simp only [get_invitation_by_id, h1, h2, h3, h4]
  have hgiid : gi.invitation_id = iid := by
    have := List.find?_some h1
    simpa using this
  have hdb1members :
      (update_invitation_status db iid .accepted).1.members = db.members := rfl
  refine ⟨?_, ?_, ?_, ?_, ?_, ?_⟩
  · intro hne
    simp only [Router.accept_invitation, hjoin]
    rw [if_pos hne]
  · intro hcur hacc
    simp only [Router.accept_invitation, hjoin]
    rw [if_neg (by simp [hcur]), if_pos (by simp [hacc]), if_pos hacc]
  · intro hcur hterm
    simp only [Router.accept_invitation, hjoin]
    rcases hterm with hd | hc
    · rw [if_neg (by simp [hcur]), if_pos (by simp [hd]), if_neg (by simp [hd])]
    · rw [if_neg (by simp [hcur]), if_pos (by simp [hc]), if_neg (by simp [hc])]
  · intro hcur hp
    simp only [Router.accept_invitation, hjoin]
    rw [if_neg (by simp [hcur]), if_neg (by simp [hp])]
    rcases hadd : add_group_member (update_invitation_status db iid .accepted).1
        gi.group_id cur true none with ⟨db2, mido, e⟩
    have hframe := add_group_member_frame
      (update_invitation_status db iid .accepted).1 gi.group_id cur true none
    rw [hadd] at hframe
    have hinv2 : db2.invitations
        = db.invitations.map (fun i : InvitationRow =>
            if i.invitation_id = iid then { i with status := InvStatus.accepted }
            else i) := hframe.2.2.1
    have hmemb := add_group_member_membership
      (update_invitation_status db iid .accepted).1 gi.group_id cur none
    rw [hadd] at hmemb
    have hgoal1 : ∀ i ∈ db2.invitations, i.invitation_id = iid →
        i.status = .accepted := by
      intro i hi hiid
      rw [hinv2] at hi
      obtain ⟨x, hx, rfl⟩ := List.mem_map.1 hi
      by_cases hxid : x.invitation_id = iid
      · simp [hxid]
      · rw [if_neg hxid] at hiid ⊢
        exact absurd hiid hxid
    cases mido with
    | some mid => exact ⟨hgoal1, hmemb⟩
    | none => exact ⟨hgoal1, hmemb⟩
  · intro huniq
    by_cases hne : gi.user_id ≠ cur
    · simp only [Router.accept_invitation, hjoin]
      rw [if_pos hne]
      exact huniq
    · by_cases hp : gi.status = .pending
      · simp only [Router.accept_invitation, hjoin]
        rw [if_neg hne, if_neg (by simp [hp])]
        rcases hadd : add_group_member (update_invitation_status db iid .accepted).1
            gi.group_id cur true none with ⟨db2, mido, e⟩
        have := add_group_member_pairUnique
          (update_invitation_status db iid .accepted).1 gi.group_id cur true none
          (by rw [hdb1members]; exact huniq)
        rw [hadd] at this
        cases mido with
        | some mid => exact this
        | none => exact this
      · simp only [Router.accept_invitation, hjoin]
        rw [if_neg hne, if_pos (by simp [hp])]
        by_cases hacc : gi.status = .accepted
        · rw [if_pos hacc]; exact huniq
        · rw [if_neg hacc]; exact huniq
  · intro db' gid' hok
    by_cases hne : gi.user_id ≠ cur
    · simp only [Router.accept_invitation, hjoin] at hok
      rw [if_pos hne] at hok
      exact absurd (congrArg Prod.snd hok) (by simp)
    · by_cases hp : gi.status = .pending
      · simp only [Router.accept_invitation, hjoin] at hok
        rw [if_neg hne, if_neg (by simp [hp])] at hok
        rcases hadd : add_group_member (update_invitation_status db iid .accepted).1
            gi.group_id cur true none with ⟨db2, mido, e⟩
        rw [hadd] at hok
        cases mido with
        | none => exact absurd (congrArg Prod.snd hok) (by simp)
        | some mid =>
            have hdb' : db2 = db' := congrArg Prod.fst hok
            subst hdb'
            have hframe := add_group_member_frame
              (update_invitation_status db iid .accepted).1 gi.group_id cur true none
            rw [hadd] at hframe
            have hinv2 : db2.invitations
                = db.invitations.map (fun i : InvitationRow =>
                    if i.invitation_id = iid then
                      { i with status := InvStatus.accepted }
                    else i) := hframe.2.2.1
            have hpres : ∀ a : InvitationRow,
                (fun i : InvitationRow => decide (i.invitation_id = iid))
                  ((fun i : InvitationRow =>
                    if i.invitation_id = iid then
                      { i with status := InvStatus.accepted }
                    else i) a)
                = (fun i : InvitationRow => decide (i.invitation_id = iid)) a := by
              intro a
              by_cases ha : a.invitation_id = iid <;> simp [ha]
            have hfind2 : db2.invitations.find?
                (fun i => i.invitation_id = iid)
                = some { gi with status := InvStatus.accepted } := by
              rw [hinv2, find?_map_pres _ _ _ hpres, h1]
              simp [hgiid]
            have hjoin2 : get_invitation_by_id db2 iid
                = some ({ gi with status := InvStatus.accepted }, g, u, inv) := by
              simp only [get_invitation_by_id, hfind2]
              rw [show db2.groups = db.groups from hframe.1]
              rw [show (db.groups.find? (fun x => x.group_id
                    = ({ gi with status := InvStatus.accepted }
                        : InvitationRow).group_id)) = some g from h2]
              rw [show db2.users = db.users from hframe.2.1]
              rw [show (db.users.find? (fun x => x.user_id
                    = ({ gi with status := InvStatus.accepted }
                        : InvitationRow).user_id)) = some u from h3]
              rw [show (db.users.find? (fun w => w.user_id
                    = ({ gi with status := InvStatus.accepted }
                        : InvitationRow).invited_by)) = some inv from h4]
            simp only [Router.accept_invitation, hjoin2]
            rw [if_neg (show ¬ ({ gi with status := InvStatus.accepted }
                  : InvitationRow).user_id ≠ cur by simpa using hne)]
            rw [if_pos (show ({ gi with status := InvStatus.accepted }
                  : InvitationRow).status ≠ .pending by simp)]
            simp
      · simp only [Router.accept_invitation, hjoin] at hok
        rw [if_neg hne, if_pos (by simp [hp])] at hok
        by_cases hacc : gi.status = .accepted
        · rw [if_pos hacc] at hok
          exact absurd (congrArg Prod.snd hok) (by simp)
        · rw [if_neg hacc] at hok
          exact absurd (congrArg Prod.snd hok) (by simp)

/-- The inviter (owner of group 5). -/
def invUser7 : UserRow :=
  { user_id := 7, email := [97], username := [97], is_active := true,
    is_admin := false, is_group_owner := true }

/-- The invitee. -/
def invUser8 : UserRow :=
  { user_id := 8, email := [98], username := [98], is_active := true,
    is_admin := false, is_group_owner := false }

/-- Group 5, owned by user 7. -/
def invGroup : GroupRow :=
  { group_id := 5, owner_user_id := 7, api_key_id := 1, name := [103],
    is_active := true }

/-- A pending invitation of user 8 to group 5 by user 7. -/
def invRow : InvitationRow :=
  { invitation_id := 1, group_id := 5, user_id := 8, invited_by := 7,
    note := none, status := .pending }

/-- A store with the two users, the group and the pending invitation. -/
def dbInvite : Db :=
  { emptyDb with users := [invUser7, invUser8], groups := [invGroup],
                 invitations := [invRow] }

/-- Witness: C2 evaluated at a pending invitation of user 8 to group 5. -/
theorem C2_accept_invitation_witness :
    (invRow.user_id ≠ 8 →
      Router.accept_invitation dbInvite 1 8 = (dbInvite, .notTarget)) ∧
    (invRow.user_id = 8 → invRow.status = .accepted →
      Router.accept_invitation dbInvite 1 8 = (dbInvite, .alreadyAccepted)) ∧
    (invRow.user_id = 8 →
      (invRow.status = .declined ∨ invRow.status = .canceled) →
      Router.accept_invitation dbInvite 1 8 = (dbInvite, .wrongStatus invRow.status)) ∧
    (invRow.user_id = 8 → invRow.status = .pending →
      (∀ i ∈ (Router.accept_invitation dbInvite 1 8).1.invitations,
          i.invitation_id = 1 → i.status = .accepted) ∧
      (∃ m ∈ (Router.accept_invitation dbInvite 1 8).1.members,
          m.group_id = invRow.group_id ∧ m.user_id = 8 ∧
          m.is_accpet = true ∧ m.is_active = true)) ∧
    (membersPairUnique dbInvite.members →
      membersPairUnique (Router.accept_invitation dbInvite 1 8).1.members) ∧
    (∀ db' gid', Router.accept_invitation dbInvite 1 8 = (db', .ok gid') →
      Router.accept_invitation db' 1 8 = (db', .alreadyAccepted)) :=
  C2_accept_invitation dbInvite 1 8 invRow invGroup invUser8 invUser7
    (by decide) (by decide) (by decide) (by decide)

/-! ### Claim C8 -/

/-- Membership row: user 8 is an accepted, active member of group 5. -/
def memberUser8Row : MemberRow :=
  { member_id := 2, group_id := 5, user_id := 8, is_accpet := true,
    is_active := true, note := none }

/-- A store where group 5 (owner 7) has member 8. -/
def dbSelfRemove : Db :=
  { emptyDb with users := [invUser7, invUser8], groups := [invGroup],
                 members := [memberUser8Row] }

/-- C8 counterexample: user 8 is not the owner of group 5, yet their
remove-member call succeeds and deactivates the row — the remove gate also
admits the member themself, so the operation is not owner-only. -/
theorem C8_remove_member_counterexample :
    invGroup.owner_user_id ≠ 8 ∧
    dbSelfRemove.groups = [invGroup] ∧
    (Router.remove_group_member dbSelfRemove 5 2 8).2 = .ok ∧
    (Router.remove_group_member dbSelfRemove 5 2 8).1.members
      = [{ memberUser8Row with is_active := false }] := by decide

/-- C8 amended: removing a member succeeds only when the caller is the
group's owner or the member being removed themself; a caller who is neither
receives the authorization error and the store is unchanged. -/
theorem C8_remove_member_authz (db : Db) (gid mid cur : Nat)
    (group : GroupRow) (member : MemberRow) (w : UserRow)
    (hg : get_group_by_id db gid = some group)
    (hm : get_member_info db mid = some (member, w))
    (hmg : member.group_id = gid) :
    (group.owner_user_id ≠ cur ∧ member.user_id ≠ cur →
      Router.remove_group_member db gid mid cur = (db, .forbidden)) ∧
    ((Router.remove_group_member db gid mid cur).2 = .ok →
      cur = group.owner_user_id ∨ cur = member.user_id) := by
  constructor
  · intro hperm
    simp only [Router.remove_group_member, hg, hm]
    rw [if_neg (by simp [hmg]), if_pos hperm]
  · intro hok
    by_cases hperm : group.owner_user_id ≠ cur ∧ member.user_id ≠ cur
    · simp only [Router.remove_group_member, hg, hm] at hok
      rw [if_neg (by simp [hmg]), if_pos hperm] at hok
      simp at hok
    · rcases not_and_or.1 hperm with h | h
      · exact Or.inl (not_not.1 h).symm
      · exact Or.inr (not_not.1 h).symm

/-- Witness: the amended C8 evaluated at group 5 with member row 2. -/
theorem C8_remove_member_authz_witness :
    (invGroup.owner_user_id ≠ 9 ∧ memberUser8Row.user_id ≠ 9 →
      Router.remove_group_member dbSelfRemove 5 2 9 = (dbSelfRemove, .forbidden)) ∧
    ((Router.remove_group_member dbSelfRemove 5 2 9).2 = .ok →
      9 = invGroup.owner_user_id ∨ 9 = memberUser8Row.user_id) :=
  C8_remove_member_authz dbSelfRemove 5 2 9 invGroup memberUser8Row invUser8
    (by decide) (by decide) (by decide)

/-! ### Claim C9 -/

/-- Plain equality used as the concrete password-verification function when
evaluating the login handler. -/
def strEq : Str → Str → Bool := fun a b => a == b

/-- An active account with email 101. -/
def loginUser : UserRow :=
  { user_id := 9, email := [101], username := [97], is_active := true,
    is_admin := false, is_group_owner := false }

/-- Its password row (hash 104, last changed at day 0). -/
def loginPwRow : PasswordRow :=
  { user_id := 9, password := [104], previous_password := none,
    update_at := some 0 }

/-- A store holding the account and its password row. -/
def dbLogin : Db := { emptyDb with users := [loginUser], passwords := [loginPwRow] }

/-- C9 counterexample: with valid credentials and an active account, a
failing login-history write makes the whole login fail with a server error —
the write's failure is propagated, not swallowed. -/
theorem C9_login_history_counterexample :
    get_user_by_email dbLogin [101] = some loginUser ∧
    loginUser.is_active = true ∧
    get_user_password dbLogin 9 = some loginPwRow ∧
    strEq [104] loginPwRow.password = true ∧
    Router.login dbLogin 200 strEq [101] [104] true = (dbLogin, .serverError) ∧
    LoginResult.serverError ≠ .ok 9 200 true :=
  ⟨by decide, by decide, by decide, by decide, by decide, by decide⟩

/-- C9 amended: for a successful authentication (email found, password
verifies, account active), a failure of the login-history write propagates
and the login fails with a server error (no history row, no token payload);
only when the write succeeds does login return the token-and-password-age
payload. -/
theorem C9_login_history_propagates (db : Db) (now : Nat)
    (verify : Str → Str → Bool) (email password : Str)
    (user : UserRow) (up : PasswordRow)
    (hu : get_user_by_email db email = some user)
    (hp : get_user_password db user.user_id = some up)
    (hv : verify password up.password = true)
    (hact : user.is_active = true) :
    Router.login db now verify email password true = (db, .serverError) ∧
    Router.login db now verify email password false
      = ({ db with loginHist := db.loginHist ++ [user.user_id] },
         .ok user.user_id
           (match up.update_at with | some upd => now - upd | none => 0)
           (decide (180 ≤ (match up.update_at with
                           | some upd => now - upd
                           | none => 0)))) := by
  constructor <;>
  · simp only [Router.login, hu, hp, hv, hact]
    simp

/-- Witness: the amended C9 evaluated at the concrete account, day 200
(password 200 days old, so the change flag is set). -/
theorem C9_login_history_propagates_witness :
    Router.login dbLogin 200 strEq [101] [104] true = (dbLogin, .serverError) ∧
    Router.login dbLogin 200 strEq [101] [104] false
      = ({ dbLogin with loginHist := dbLogin.loginHist ++ [loginUser.user_id] },
         .ok loginUser.user_id
           (match loginPwRow.update_at with | some upd => 200 - upd | none => 0)
           (decide (180 ≤ (match loginPwRow.update_at with
                           | some upd => 200 - upd
                           | none => 0)))) :=
  C9_login_history_propagates dbLogin 200 strEq [101] [104] loginUser loginPwRow
    (by decide) (by decide) (by decide) (by decide)

/-! ### Claim C10 -/

/-- C10: accepting an email-path group invitation never deletes the token:
under a live (unexpired) token the verify step returns the payload without
touching the store, every accept path leaves the token table unchanged, and
verifying the same token again after the accept still returns the payload;
with matching email and an existing group the accept itself succeeds. -/
theorem C10_accept_email_invitation_keeps_token (db : Db) (now : Nat)
    (curId : Nat) (curEmail : Str) (token : Str) (r : TokenRow) (p : InvitePayload)
    (hfind : db.tokens.find? (fun t => t.token = token ∧
        t.token_type = groupInvitationType) = some r)
    (hexp : ¬ r.expires_at < now)
    (hp : r.extra_data = some p) :
    verify_invitation db now token = (db, some p, none) ∧
    (Router.accept_group_invitation db now curId curEmail token).1.tokens
      = db.tokens ∧
    verify_invitation
        (Router.accept_group_invitation db now curId curEmail token).1 now token
      = ((Router.accept_group_invitation db now curId curEmail token).1,
         some p, none) ∧
    (p.email = curEmail → ∀ g, get_group_by_id db p.group_id = some g →
      (Router.accept_group_invitation db now curId curEmail token).2 = .ok) := by
  have hverify : verify_invitation db now token = (db, some p, none) := by
    simp only [verify_invitation, hfind, hp]
    rw [if_neg hexp]
  have htok : (Router.accept_group_invitation db now curId curEmail token).1.tokens
      = db.tokens := by
    simp only [Router.accept_group_invitation, hverify]
    by_cases hmail : p.email ≠ curEmail
    · rw [if_pos hmail]
    · rw [if_neg hmail]
      cases hg : get_group_by_id db p.group_id with
      | none => rfl
      | some g =>
          cases hmem : get_member_by_user_and_group db curId p.group_id with
          | some existing => rfl
          | none =>
              rcases hadd : add_group_member db p.group_id curId true none
                with ⟨db2, mido, e⟩
              have hframe := add_group_member_frame db p.group_id curId true none
              rw [hadd] at hframe
              cases mido with
              | some mid => exact hframe.2.2.2
              | none => exact hframe.2.2.2
  refine ⟨hverify, htok, ?_, ?_⟩
  · have hfind2 : (Router.accept_group_invitation db now curId curEmail
        token).1.tokens.find? (fun t => t.token = token ∧
          t.token_type = groupInvitationType) = some r := by
      rw [htok]; exact hfind
    simp only [verify_invitation, hfind2, hp]
    rw [if_neg hexp]
  · intro hmail g hg
    simp only [Router.accept_group_invitation, hverify]
    rw [if_neg (by simp [hmail])]
    simp only [hg]
    cases hmem : get_member_by_user_and_group db curId p.group_id with
    | some existing => rfl
    | none =>
        have hnone : db.members.find? (fun m => m.group_id = p.group_id ∧
            m.user_id = curId) = none := by
          apply List.find?_eq_none.2
          intro m hm
          have := List.find?_eq_none.1 hmem m hm
          simp only [decide_eq_true_eq] at this ⊢
          intro hc
          exact this ⟨hc.2, hc.1⟩
        simp only [add_group_member, hnone]

/-- A live email-invitation token for group 5 bound to email 98. -/
def inviteTokenRow : TokenRow :=
  { user_id := none, token := [107], token_type := groupInvitationType,
    expires_at := 100, extra_data := some ⟨5, [98], 7⟩ }

/-- A store with the group, the two users and the live invitation token. -/
def dbEmailInvite : Db :=
  { emptyDb with users := [invUser7, invUser8], groups := [invGroup],
                 tokens := [inviteTokenRow] }

/-- Witness: C10 evaluated with user 8 (email 98) accepting the token at
instant 50. -/
theorem C10_accept_email_invitation_keeps_token_witness :
    verify_invitation dbEmailInvite 50 [107]
      = (dbEmailInvite, some ⟨5, [98], 7⟩, none) ∧
    (Router.accept_group_invitation dbEmailInvite 50 8 [98] [107]).1.tokens
      = dbEmailInvite.tokens ∧
    verify_invitation
        (Router.accept_group_invitation dbEmailInvite 50 8 [98] [107]).1 50 [107]
      = ((Router.accept_group_invitation dbEmailInvite 50 8 [98] [107]).1,
         some ⟨5, [98], 7⟩, none) ∧
    ((⟨5, [98], 7⟩ : InvitePayload).email = [98] →
      ∀ g, get_group_by_id dbEmailInvite (⟨5, [98], 7⟩ : InvitePayload).group_id
          = some g →
      (Router.accept_group_invitation dbEmailInvite 50 8 [98] [107]).2 = .ok) :=
  C10_accept_email_invitation_keeps_token dbEmailInvite 50 8 [98] [107]
    inviteTokenRow ⟨5, [98], 7⟩ (by decide) (by decide) (by decide)

end AiChat
